import Mathlib

/-!
# Verification of the bunq API signature engine (`bunq.py`)

Shallow embedding of the request/response canonicalization, header assembly,
signing orchestration and response verification implemented by `class API`
in `bunq.py`, together with proofs settling the specification claims.

Python strings are modelled as Lean `String`; Python dicts (which preserve
insertion order and have unique keys) are modelled as association lists
`List (String × String)`, with `Nodup` hypotheses on the key list where a
claim needs the dict uniqueness guarantee.
-/

namespace Bunq

/-- Header mappings (Python `dict` of `str` to `str`), in insertion order. -/
abbrev Headers := List (String × String)

/-- Code-point lexicographic `≤` on character lists: the ordering Python
uses to compare `str` values, written as an executable comparator. -/
def listLE : List Char → List Char → Bool
  | [], _ => true
  | _ :: _, [] => false
  | a :: as, b :: bs =>
    if a < b then true else if b < a then false else listLE as bs

/-- Code-point lexicographic `<` on character lists. -/
def listLT : List Char → List Char → Bool
  | [], [] => false
  | [], _ :: _ => true
  | _ :: _, [] => false
  | a :: as, b :: bs =>
    if a < b then true else if b < a then false else listLT as bs

/-- Comparison used by Python's `sorted` on `(name, value)` tuples:
lexicographic tuple order (compare names by code point, break ties by
value). -/
def pairLE (a b : String × String) : Prop :=
  (listLT a.1.data b.1.data || (a.1 == b.1 && listLE a.2.data b.2.data)) = true

instance : DecidableRel pairLE := fun a b => by
  unfold pairLE; infer_instance

/-- Order on header entries by header name only, as the spec's words
("sorted lexicographically by header name, case-sensitive ordinal sort")
describe the sort. -/
def nameLE (a b : String × String) : Prop := listLE a.1.data b.1.data = true

instance : DecidableRel nameLE := fun a b => by
  unfold nameLE; infer_instance

theorem listLE_refl (x : List Char) : listLE x x = true := by
  induction x with
  | nil => rfl
  | cons a as ih => simp [listLE, ih]

theorem listLE_trans {x y z : List Char} (h1 : listLE x y = true)
    (h2 : listLE y z = true) : listLE x z = true := by
  induction x generalizing y z with
  | nil =>
    cases z with
    | nil => rfl
    | cons c cs => rfl
  | cons a as ih =>
    cases y with
    | nil => simp [listLE] at h1
    | cons b bs =>
      cases z with
      | nil => simp [listLE] at h2
      | cons c cs =>
        simp only [listLE] at h1 h2 ⊢
        rcases lt_trichotomy a b with hab | hab | hab
        · rcases lt_trichotomy b c with hbc | hbc | hbc
          · simp [lt_trans hab hbc]
          · subst hbc; simp [hab]
          · simp [lt_asymm hbc, hbc] at h2
        · subst hab
          simp [lt_irrefl] at h1
          rcases lt_trichotomy a c with hac | hac | hac
          · simp [hac]
          · subst hac
            simp [lt_irrefl] at h2 ⊢
            exact ih h1 h2
          · simp [lt_asymm hac, hac] at h2
        · simp [lt_asymm hab, hab] at h1

theorem listLE_antisymm {x y : List Char} (h1 : listLE x y = true)
    (h2 : listLE y x = true) : x = y := by
  induction x generalizing y with
  | nil =>
    cases y with
    | nil => rfl
    | cons b bs => simp [listLE] at h2
  | cons a as ih =>
    cases y with
    | nil => simp [listLE] at h1
    | cons b bs =>
      simp only [listLE] at h1 h2
      rcases lt_trichotomy a b with hab | hab | hab
      · simp [lt_asymm hab, hab] at h2
      · subst hab
        simp [lt_irrefl] at h1 h2
        exact congrArg (a :: ·) (ih h1 h2)
      · simp [lt_asymm hab, hab] at h1

theorem listLE_total (x y : List Char) :
    listLE x y = true ∨ listLE y x = true := by
  induction x generalizing y with
  | nil => exact Or.inl rfl
  | cons a as ih =>
    cases y with
    | nil => exact Or.inr rfl
    | cons b bs =>
      simp only [listLE]
      rcases lt_trichotomy a b with hab | hab | hab
      · simp [hab]
      · subst hab
        simp only [lt_irrefl, if_false]
        exact ih bs
      · simp [hab, lt_asymm hab]

theorem listLT_eq_not_listLE (x y : List Char) :
    listLT x y = !listLE y x := by
  induction x generalizing y with
  | nil =>
    cases y with
    | nil => rfl
    | cons b bs => rfl
  | cons a as ih =>
    cases y with
    | nil => rfl
    | cons b bs =>
      simp only [listLT, listLE]
      rcases lt_trichotomy a b with hab | hab | hab
      · simp [hab, lt_asymm hab]
      · subst hab
        simp only [lt_irrefl, if_false]
        exact ih bs
      · simp [hab, lt_asymm hab]

theorem listLT_irrefl (x : List Char) : listLT x x = false := by
  rw [listLT_eq_not_listLE, listLE_refl]; rfl

theorem listLE_of_listLT {x y : List Char} (h : listLT x y = true) :
    listLE x y = true := by
  rw [listLT_eq_not_listLE] at h
  have h' : listLE y x = false := by simpa using h
  rcases listLE_total x y with hxy | hxy
  · exact hxy
  · rw [hxy] at h'; cases h'

theorem listLT_of_listLE_of_ne {x y : List Char} (h : listLE x y = true)
    (hne : x ≠ y) : listLT x y = true := by
  rw [listLT_eq_not_listLE]
  cases hle : listLE y x
  · rfl
  · exact absurd (listLE_antisymm h hle) hne

theorem listLT_trans {x y z : List Char} (h1 : listLT x y = true)
    (h2 : listLT y z = true) : listLT x z = true := by
  rw [listLT_eq_not_listLE] at h1 h2 ⊢
  have h1' : listLE y x = false := by simpa using h1
  have h2' : listLE z y = false := by simpa using h2
  cases hzx : listLE z x
  · rfl
  · have hxy : listLE x y = true := by
      rcases listLE_total x y with h | h
      · exact h
      · rw [h] at h1'; cases h1'
    have hzy := listLE_trans hzx hxy
    rw [hzy] at h2'; cases h2'

theorem nameLE_of_pairLE {a b : String × String} (h : pairLE a b) :
    nameLE a b := by
  unfold pairLE at h
  unfold nameLE
  simp only [Bool.or_eq_true, Bool.and_eq_true, beq_iff_eq] at h
  rcases h with h | ⟨h, _⟩
  · exact listLE_of_listLT h
  · rw [h]; exact listLE_refl _

instance : IsTrans (String × String) pairLE := by
  constructor
  intro a b c hab hbc
  unfold pairLE at hab hbc ⊢
  simp only [Bool.or_eq_true, Bool.and_eq_true, beq_iff_eq] at hab hbc ⊢
  rcases hab with h1 | ⟨h1, h1v⟩ <;> rcases hbc with h2 | ⟨h2, h2v⟩
  · exact Or.inl (listLT_trans h1 h2)
  · rw [← h2]; exact Or.inl h1
  · rw [h1]; exact Or.inl h2
  · exact Or.inr ⟨h1.trans h2, listLE_trans h1v h2v⟩

instance : IsAntisymm (String × String) pairLE := by
  constructor
  intro a b hab hba
  unfold pairLE at hab hba
  simp only [Bool.or_eq_true, Bool.and_eq_true, beq_iff_eq] at hab hba
  rcases hab with h1 | ⟨h1, h1v⟩
  · rcases hba with h2 | ⟨h2, _⟩
    · have := listLT_trans h1 h2
      rw [listLT_irrefl] at this; cases this
    · rw [h2] at h1
      rw [listLT_irrefl] at h1; cases h1
  · rcases hba with h2 | ⟨_, h2v⟩
    · rw [h1] at h2
      rw [listLT_irrefl] at h2; cases h2
    · exact Prod.ext h1 (String.ext (listLE_antisymm h1v h2v))

instance : IsTotal (String × String) pairLE := by
  constructor
  intro a b
  unfold pairLE
  simp only [Bool.or_eq_true, Bool.and_eq_true, beq_iff_eq]
  by_cases hk : a.1 = b.1
  · rcases listLE_total a.2.data b.2.data with hv | hv
    · exact Or.inl (Or.inr ⟨hk, hv⟩)
    · exact Or.inr (Or.inr ⟨hk.symm, hv⟩)
  · rcases listLE_total a.1.data b.1.data with h | h
    · exact Or.inl (Or.inl (listLT_of_listLE_of_ne h
        (fun hd => hk (String.ext hd))))
    · exact Or.inr (Or.inl (listLT_of_listLE_of_ne h
        (fun hd => hk (String.ext hd).symm)))

/-- `sorted(headers.items())` in Python: sort the `(name, value)` tuples. -/
def pySorted (l : Headers) : Headers := List.insertionSort pairLE l

/-- The sort as the spec's words describe it: by header name. -/
def sortByName (l : Headers) : Headers := List.insertionSort nameLE l

/-- `'%s: %s' % (k, v)` — one canonical header line. -/
def headerLine (kv : String × String) : String := kv.1 ++ ": " ++ kv.2

/-- Python `sep.join(l)`. -/
def pyJoin (sep : String) : List String → String
  | [] => ""
  | [x] => x
  | x :: y :: xs => x ++ sep ++ pyJoin sep (y :: xs)

/-- Model of `json.dumps` restricted to flat string-valued objects whose
strings need no escaping: Python's default separators are `", "` between
members and `": "` between key and value. -/
def jsonDumps (payload : List (String × String)) : String :=
  "\x7b" ++ pyJoin ", " (payload.map (fun kv =>
    "\"" ++ kv.1 ++ "\": \"" ++ kv.2 ++ "\"")) ++ "\x7d"

/-- Lines 93–99 of `bunq.py`: the canonical request string.
`msg = '%s\n%s\n\n' % (action, '\n'.join(sorted header lines))`, and the
JSON body is appended exactly when `payload` is truthy (non-empty dict). -/
def canonicalRequest (action : String) (headers : Headers)
    (payload : List (String × String)) : String :=
  action ++ "\n" ++ pyJoin "\n" ((pySorted headers).map headerLine) ++ "\n\n"
    ++ (if payload.isEmpty then "" else jsonDumps payload)

/-- Every line followed by a newline terminator. -/
def lineTerminated : List String → String
  | [] => ""
  | x :: xs => x ++ "\n" ++ lineTerminated xs

/-- The canonical request string exactly as the claim's words (and the spec's
two concrete scenarios) describe it: method and path joined by a single space,
a newline, one newline-terminated `Name: Value` line per header sorted
lexicographically by header name, then exactly one blank line, then the
JSON-encoded body iff the payload is non-empty (so an empty header map gives
`"GET /v1/foo" ++ "\n\n"`). -/
def specCanonicalRequest (method path : String) (headers : Headers)
    (payload : List (String × String)) : String :=
  method ++ " " ++ path ++ "\n"
    ++ lineTerminated ((sortByName headers).map headerLine) ++ "\n"
    ++ (if payload.isEmpty then "" else jsonDumps payload)

/-- The response-header allow-list `srv_headers` (lines 139–142). -/
def srv_headers : List String :=
  ["X-Bunq-Client-Request-Id", "X-Bunq-Client-Response-Id"]

/-- Lines 144–152 of `bunq.py`: the canonical response string.
`msg = '%s\n%s\n\n%s' % (status_code, joined, text)` where `joined` keeps,
from the sorted response headers, only those whose name is in
`srv_headers`. -/
def canonicalResponse (status : Nat) (headers : Headers) (text : String) :
    String :=
  toString status ++ "\n"
    ++ pyJoin "\n" (((pySorted headers).filter
        (fun kv => srv_headers.contains kv.1)).map headerLine)
    ++ "\n\n" ++ text

/-- The canonical response as the spec's words describe it
(`"<status-code>\n<sorted selected-response-header lines>\n\n<raw body text>"`):
only the allow-listed headers participate, sorted by header name. -/
def specCanonicalResponse (status : Nat) (headers : Headers) (text : String) :
    String :=
  toString status ++ "\n"
    ++ pyJoin "\n" ((sortByName (headers.filter
        (fun kv => srv_headers.contains kv.1))).map headerLine)
    ++ "\n\n" ++ text

/-- Lines 81–91 of `bunq.py`: the header dict built by `query` before the
signature is computed — six fixed entries, plus the bearer token when
`self.token` is truthy (non-empty). `version` is the content of the VERSION
file (`__version__`) and `requestId` is `str(uuid.uuid1())`; both are
produced outside the engine. -/
def baseHeaders (version requestId token : String) : Headers :=
  [("Cache-Control", "no-cache"),
   ("User-Agent", "python-bunq-api/" ++ version),
   ("X-Bunq-Client-Request-Id", requestId),
   ("X-Bunq-Geolocation", "0 0 0 0 NL"),
   ("X-Bunq-Language", "en_US"),
   ("X-Bunq-Region", "nl_NL")]
  ++ (if token = "" then [] else [("X-Bunq-Client-Authentication", token)])

/-- Line 101 of `bunq.py`: after the canonical string is signed, the base64
signature is inserted as `X-Bunq-Client-Signature`, giving the full outgoing
header dict. -/
def outgoingHeaders (version requestId token signature : String) : Headers :=
  baseHeaders version requestId token ++ [("X-Bunq-Client-Signature", signature)]

/-- Lines 68–72: `method` defaults to GET or POST by payload truthiness only
when it was not supplied. -/
def resolveMethod (method : String) (payload : List (String × String)) :
    String :=
  if method = "" then (if payload.isEmpty then "GET" else "POST") else method

/-- Lines 74–77: prefix the endpoint with the API version
(`self.api_version = 'v1'`). -/
def resolveEndpoint (endpoint : String) : String :=
  if ¬ endpoint.startsWith "/" then "/v1/" ++ endpoint
  else if ¬ endpoint.startsWith "/v1" then "/v1" ++ endpoint
  else endpoint

/-- Everything `query` computes before handing the request to the transport
(`requests.post` / `requests.get`, lines 103–106): the verb actually used on
the wire, the URL, the outgoing headers, and the signed canonical string. -/
structure PreparedQuery where
  transport : String
  url : String
  requestHeaders : Headers
  msg : String
  deriving Repr, DecidableEq

/-- Lines 66–106 of `bunq.py` up to the transport call. `signFn` stands for
`self.sign` (base64 PKCS#1 v1.5 / SHA-256 signing by the `cryptography`
library over the held private key — external key material). The transport
verb is chosen by `if payload: requests.post ... else: requests.get ...`,
ignoring `method`. -/
def query (signFn : String → String) (version token requestId : String)
    (endpoint : String) (payload : List (String × String)) (method : String) :
    PreparedQuery :=
  let m := resolveMethod method payload
  let ep := resolveEndpoint endpoint
  let action := m ++ " " ++ ep
  let hdrs := baseHeaders version requestId token
  let msg := canonicalRequest action hdrs payload
  { transport := if payload.isEmpty then "GET" else "POST"
    url := "https://api.bunq.com" ++ ep
    requestHeaders := outgoingHeaders version requestId token (signFn msg)
    msg := msg }

/-- The Python exceptions that `API.verify` can raise. -/
inductive PyError where
  | attributeError (attr : String)
  | nameError (name : String)
  | keyError (key : String)
  | binasciiError
  deriving Repr, DecidableEq

/-- A `requests` response as `API.verify` consumes it: integer status code,
header mapping, and raw body text. -/
structure Response where
  status_code : Nat
  headers : Headers
  text : String
  deriving Repr, DecidableEq

/-- Characters of the standard base64 alphabet together with the padding
character. -/
def isB64Char (c : Char) : Bool :=
  ('A' ≤ c && c ≤ 'Z') || ('a' ≤ c && c ≤ 'z') || ('0' ≤ c && c ≤ '9') ||
    c = '+' || c = '/' || c = '='

/-- Success condition of `base64.b64decode` (default `validate=False`):
characters outside the alphabet are discarded, and decoding raises
`binascii.Error` unless the remaining character count (padding included) is a
multiple of four. -/
def b64ok (s : String) : Bool :=
  (s.data.filter isB64Char).length % 4 == 0

/-- Python dict lookup `headers[key]` (raises `KeyError` when absent). -/
def lookupHeader (headers : Headers) (key : String) : Option String :=
  (headers.find? (fun kv => kv.1 = key)).map Prod.snd

/-- Lines 128–167 of `bunq.py`, `API.verify`, modelled faithfully with its
two name bugs. `serverKeyPresent` records whether `self.server_key` was
assigned in `__init__` — that happens only when a server key PEM was
supplied (lines 41–48), so when none was, line 135's `self.server_key`
lookup raises `AttributeError`. When the attribute is present (a loaded key
object, always truthy), the canonical response string is built, the
signature header is read (`KeyError` if absent) and base64-decoded
(`binascii.Error` if invalid), and then line 157 evaluates the bare name
`server_key` — which is unbound in the function (the attribute is
`self.server_key`), so the call raises `NameError` before any signature
check can happen. `Except.ok (some b)` would model `return True/False`,
`Except.ok none` the bare `return` of the skip branch; none of these is
reachable except through the error paths shown. -/
def verify (serverKeyPresent : Bool) (res : Response) :
    Except PyError (Option Bool) :=
  if ¬ serverKeyPresent then
    Except.error (PyError.attributeError "server_key")
  else
    let _msg := canonicalResponse res.status_code res.headers res.text
    match lookupHeader res.headers "X-Bunq-Server-Signature" with
    | none => Except.error (PyError.keyError "X-Bunq-Server-Signature")
    | some sig =>
      if ¬ b64ok sig then Except.error PyError.binasciiError
      else Except.error (PyError.nameError "server_key")

/-- Lines 108–111 of `bunq.py`: after the transport returns `r`, `query`
runs `valid = self.verify(r)` when `verify=True` (binding the result to a
local that is never read) and then `return r`; an exception raised by
`self.verify` propagates out of `query`. -/
def queryReturn (serverKeyPresent : Bool) (verifyFlag : Bool)
    (r : Response) : Except PyError Response :=
  if verifyFlag then
    match verify serverKeyPresent r with
    | Except.error e => Except.error e
    | Except.ok _ => Except.ok r
  else Except.ok r

/-! ## Helper lemmas about the sorts and joins -/

theorem pySorted_perm_eq {l1 l2 : Headers} (h : l1.Perm l2) :
    pySorted l1 = pySorted l2 := by
  apply List.eq_of_perm_of_sorted (r := pairLE)
  · exact (List.perm_insertionSort pairLE l1).trans
      (h.trans (List.perm_insertionSort pairLE l2).symm)
  · exact List.sorted_insertionSort pairLE l1
  · exact List.sorted_insertionSort pairLE l2

theorem pySorted_sorted_by_name (l : Headers) :
    List.Sorted nameLE (pySorted l) :=
  (List.sorted_insertionSort pairLE l).imp (fun h => nameLE_of_pairLE h)

theorem pySorted_filter_comm (p : String × String → Bool) (l : Headers) :
    pySorted (l.filter p) = (pySorted l).filter p := by
  apply List.eq_of_perm_of_sorted (r := pairLE)
  · exact (List.perm_insertionSort pairLE (l.filter p)).trans
      (((List.perm_insertionSort pairLE l).filter p).symm)
  · exact List.sorted_insertionSort pairLE (l.filter p)
  · exact (List.sorted_insertionSort pairLE l).sublist
      (List.filter_sublist (pySorted l))

theorem orderedInsert_congr {r s : (String × String) → (String × String) → Prop}
    [DecidableRel r] [DecidableRel s] (a : String × String) (l : Headers)
    (h : ∀ x ∈ a :: l, ∀ y ∈ a :: l, (r x y ↔ s x y)) :
    l.orderedInsert r a = l.orderedInsert s a := by
  induction l with
  | nil => rfl
  | cons b t ih =>
    have hab : r a b ↔ s a b :=
      h a (List.mem_cons_self a (b :: t)) b
        (List.mem_cons_of_mem a (List.mem_cons_self b t))
    simp only [List.orderedInsert]
    by_cases hr : r a b
    · rw [if_pos hr, if_pos (hab.mp hr)]
    · have ht : ∀ x ∈ a :: t, ∀ y ∈ a :: t, (r x y ↔ s x y) := by
        intro x hx y hy
        apply h <;> simp only [List.mem_cons] at hx hy ⊢ <;> tauto
      rw [if_neg hr, if_neg (fun hs => hr (hab.mpr hs)), ih ht]

theorem insertionSort_congr
    {r s : (String × String) → (String × String) → Prop}
    [DecidableRel r] [DecidableRel s] (l : Headers)
    (h : ∀ x ∈ l, ∀ y ∈ l, (r x y ↔ s x y)) :
    List.insertionSort r l = List.insertionSort s l := by
  induction l with
  | nil => rfl
  | cons a t ih =>
    have ht : ∀ x ∈ t, ∀ y ∈ t, (r x y ↔ s x y) := fun x hx y hy =>
      h x (List.mem_cons_of_mem a hx) y (List.mem_cons_of_mem a hy)
    simp only [List.insertionSort]
    rw [ih ht]
    apply orderedInsert_congr
    intro x hx y hy
    have hmem : ∀ z, z ∈ a :: List.insertionSort s t → z ∈ a :: t := by
      intro z hz
      rcases List.mem_cons.mp hz with hz | hz
      · exact hz ▸ List.mem_cons_self a t
      · exact List.mem_cons_of_mem a
          ((List.perm_insertionSort s t).mem_iff.mp hz)
    exact h x (hmem x hx) y (hmem y hy)

/-- On a header list with pairwise-distinct names — as `dict.items()`
always yields — sorting by name alone agrees with Python's full tuple
sort. -/
theorem sortByName_eq_pySorted {l : Headers}
    (hnd : (l.map Prod.fst).Nodup) : sortByName l = pySorted l := by
  unfold sortByName pySorted
  apply insertionSort_congr
  intro x hx y hy
  constructor
  · intro hle
    unfold nameLE at hle
    unfold pairLE
    simp only [Bool.or_eq_true, Bool.and_eq_true, beq_iff_eq]
    by_cases hxy : x.1 = y.1
    · have hx_eq : x = y := List.inj_on_of_nodup_map hnd hx hy hxy
      subst hx_eq
      exact Or.inr ⟨rfl, listLE_refl _⟩
    · exact Or.inl (listLT_of_listLE_of_ne hle
        (fun hd => hxy (String.ext hd)))
  · exact fun hpl => nameLE_of_pairLE hpl

/-- With at least one line present, the code's shape
`join(lines, sep) ++ sep ++ sep` coincides with "each line
newline-terminated, then one blank line". -/
theorem pyJoin_newline_eq_lineTerminated (l : List String) (hne : l ≠ []) :
    pyJoin "\n" l ++ "\n\n" = lineTerminated l ++ "\n" := by
  induction l with
  | nil => exact absurd rfl hne
  | cons x xs ih =>
    cases xs with
    | nil =>
      show x ++ "\n\n" = x ++ "\n" ++ lineTerminated [] ++ "\n"
      rw [show lineTerminated [] = "" from rfl, String.append_empty,
        String.append_assoc]
      rfl
    | cons y ys =>
      show x ++ "\n" ++ pyJoin "\n" (y :: ys) ++ "\n\n"
        = x ++ "\n" ++ lineTerminated (y :: ys) ++ "\n"
      rw [String.append_assoc (x ++ "\n"), String.append_assoc (x ++ "\n"),
        ih (by simp)]

theorem append_mid_congr {X Y : String} (P B : String)
    (h : X ++ "\n\n" = Y ++ "\n") :
    P ++ X ++ "\n\n" ++ B = P ++ Y ++ "\n" ++ B := by
  rw [String.append_assoc P X, h, ← String.append_assoc P Y]

/-- Existence of an error result for every invocation of `verify`: the
skip branch is guarded by an attribute that is missing exactly when the
branch would be taken, and the verification call reads an unbound name. -/
theorem verifyRaisesAux (kp : Bool) (res : Response) :
    ∃ e : PyError, verify kp res = Except.error e := by
  cases kp with
  | false => exact ⟨PyError.attributeError "server_key", rfl⟩
  | true =>
    unfold verify
    cases hl : lookupHeader res.headers "X-Bunq-Server-Signature" with
    | none => exact ⟨PyError.keyError "X-Bunq-Server-Signature", by simp [hl]⟩
    | some sig =>
      by_cases hb : b64ok sig
      · exact ⟨PyError.nameError "server_key", by simp [hl, hb]⟩
      · exact ⟨PyError.binasciiError, by simp [hl, hb]⟩

/-! ## Claim theorems -/

/-- Claim C1, counterexample: for the empty header mapping the claim's
formula (pinned by the spec's scenario "GET with empty headers and no body
yields `GET /v1/foo` followed by `\n\n`") fails on the code, which emits an
extra blank line: the `'%s\n%s\n\n'` format appends its separator newlines
even though the joined header block is empty. -/
theorem canonicalRequest_empty_headers_counterexample :
    canonicalRequest ("GET" ++ " " ++ "/v1/foo") [] [] = "GET /v1/foo\n\n\n"
    ∧ specCanonicalRequest "GET" "/v1/foo" [] [] = "GET /v1/foo\n\n"
    ∧ canonicalRequest ("GET" ++ " " ++ "/v1/foo") [] []
        ≠ specCanonicalRequest "GET" "/v1/foo" [] [] :=
  ⟨by decide, by decide, by decide⟩

/-- Claim C1, amended: for every method, path, NON-EMPTY header mapping
(with distinct header names, as Python dicts guarantee) and optional
payload, the canonical request string is exactly the claimed shape: method
and path joined by a single space, a newline, one newline-terminated
`Name: Value` line per header sorted by header name, exactly one blank
line, and the JSON body iff the payload is non-empty (so with an empty
payload the string ends right after the blank line, in `\n\n`). -/
theorem canonicalRequest_matches_spec (method path : String)
    (headers : Headers) (payload : List (String × String))
    (hne : headers ≠ []) (hnd : (headers.map Prod.fst).Nodup) :
    canonicalRequest (method ++ " " ++ path) headers payload
      = specCanonicalRequest method path headers payload := by
  unfold canonicalRequest specCanonicalRequest
  rw [sortByName_eq_pySorted hnd]
  have hsne : pySorted headers ≠ [] := by
    intro h
    exact hne (((List.perm_insertionSort pairLE headers).symm.trans
      (h ▸ List.Perm.refl _)).eq_nil)
  have hlines : (pySorted headers).map headerLine ≠ [] := by
    simpa using hsne
  exact append_mid_congr _ _ (pyJoin_newline_eq_lineTerminated _ hlines)

/-- Witness for `canonicalRequest_matches_spec` at the spec's POST
scenario. -/
theorem canonicalRequest_matches_spec_witness :
    ([(("Cache-Control" : String), ("no-cache" : String)),
      (("User-Agent" : String), ("x/1.0" : String))] : Headers) ≠ []
    ∧ (([(("Cache-Control" : String), ("no-cache" : String)),
        (("User-Agent" : String), ("x/1.0" : String))] : Headers).map
          Prod.fst).Nodup
    ∧ canonicalRequest ("POST" ++ " " ++ "/v1/payment")
        [("Cache-Control", "no-cache"), ("User-Agent", "x/1.0")]
        [("amount", "10.00")]
      = specCanonicalRequest "POST" "/v1/payment"
        [("Cache-Control", "no-cache"), ("User-Agent", "x/1.0")]
        [("amount", "10.00")] :=
  ⟨by decide, by decide,
    canonicalRequest_matches_spec "POST" "/v1/payment"
      [("Cache-Control", "no-cache"), ("User-Agent", "x/1.0")]
      [("amount", "10.00")] (by decide) (by decide)⟩

/-- Claim C2: the signature round trip cannot succeed on the code —
`API.verify` raises on every invocation (an `AttributeError` when no
server key was configured, otherwise a `KeyError`, `binascii.Error`, or
the `NameError` from the unbound name `server_key` on line 157), so it
never reports the success outcome for any signed message. -/
theorem verify_always_raises (kp : Bool) (res : Response) :
    ∃ e : PyError, verify kp res = Except.error e :=
  verifyRaisesAux kp res

/-- Claim C3: constructing the engine without a server public key and
calling `verify` does not return the skip outcome — `self.server_key` was
never assigned, so line 135 raises `AttributeError` before the skip branch
(`print` + bare `return`) can run. -/
theorem verify_no_server_key_raises (res : Response) :
    verify false res = Except.error (PyError.attributeError "server_key") :=
  rfl

/-- Claim C4: an invalid signature does not make `verify` return `False`.
A syntactically invalid (non-base64) signature header raises
`binascii.Error` (the decode on line 154 sits outside the `try` block),
and a well-formed one reaches line 157, which raises `NameError` (unbound
name `server_key`) before the cryptographic check could ever report
`InvalidSignature`. -/
theorem verify_invalid_signature_raises :
    verify true ⟨200, [("X-Bunq-Server-Signature", "A")], ""⟩
      = Except.error PyError.binasciiError
    ∧ verify true ⟨200, [("X-Bunq-Server-Signature", "AAAA")], ""⟩
      = Except.error (PyError.nameError "server_key") :=
  ⟨rfl, rfl⟩

/-- Claim C5: two header mappings with the same entries in different
insertion orders canonicalize to byte-identical strings, and the canonical
header block is always sorted by header name. -/
theorem canonicalRequest_perm_invariant (action : String) (h1 h2 : Headers)
    (payload : List (String × String)) (hperm : h1.Perm h2) :
    canonicalRequest action h1 payload = canonicalRequest action h2 payload
    ∧ List.Sorted nameLE (pySorted h1) := by
  refine ⟨?_, pySorted_sorted_by_name h1⟩
  unfold canonicalRequest
  rw [pySorted_perm_eq hperm]

/-- Witness for `canonicalRequest_perm_invariant` on two orderings of the
same two headers. -/
theorem canonicalRequest_perm_invariant_witness :
    ([(("B" : String), ("2" : String)), (("A" : String), ("1" : String))] :
        Headers).Perm [(("A" : String), ("1" : String)),
        (("B" : String), ("2" : String))]
    ∧ (canonicalRequest "GET /v1/user" [("B", "2"), ("A", "1")] []
        = canonicalRequest "GET /v1/user" [("A", "1"), ("B", "2")] []
      ∧ List.Sorted nameLE (pySorted [("B", "2"), ("A", "1")])) :=
  ⟨by decide,
    canonicalRequest_perm_invariant "GET /v1/user" [("B", "2"), ("A", "1")]
      [("A", "1"), ("B", "2")] [] (by decide)⟩

/-- Claim C6: the canonical response string is the status code, a newline,
the by-name-sorted lines of exactly the allow-listed response headers, a
blank line, and the raw body; and any header outside the allow-list — the
server signature header among them — contributes nothing to it. -/
theorem canonicalResponse_matches_spec (status : Nat) (headers : Headers)
    (text : String) :
    ((headers.map Prod.fst).Nodup →
      canonicalResponse status headers text
        = specCanonicalResponse status headers text)
    ∧ ∀ kv : String × String, srv_headers.contains kv.1 = false →
        canonicalResponse status (kv :: headers) text
          = canonicalResponse status headers text := by
  constructor
  · intro hnd
    unfold canonicalResponse specCanonicalResponse
    have hfnd : ((headers.filter
        (fun kv => srv_headers.contains kv.1)).map Prod.fst).Nodup :=
      List.Nodup.sublist ((List.filter_sublist headers).map Prod.fst) hnd
    rw [sortByName_eq_pySorted hfnd, pySorted_filter_comm]
  · intro kv hkv
    unfold canonicalResponse
    rw [← pySorted_filter_comm, ← pySorted_filter_comm,
      show (kv :: headers).filter (fun kv => srv_headers.contains kv.1)
          = headers.filter (fun kv => srv_headers.contains kv.1) by
        simp only [List.filter_cons, hkv]
        rfl]

/-- Witness for `canonicalResponse_matches_spec`: a response carrying the
signature header, one allow-listed header, and a body. -/
theorem canonicalResponse_matches_spec_witness :
    (([(("X-Bunq-Client-Request-Id" : String), ("r1" : String))] :
        Headers).map Prod.fst).Nodup
    ∧ srv_headers.contains ("X-Bunq-Server-Signature" : String) = false
    ∧ canonicalResponse 200 [("X-Bunq-Client-Request-Id", "r1")] "BODY"
        = specCanonicalResponse 200 [("X-Bunq-Client-Request-Id", "r1")]
            "BODY"
    ∧ canonicalResponse 200
        (("X-Bunq-Server-Signature", "sig") ::
          [("X-Bunq-Client-Request-Id", "r1")]) "BODY"
        = canonicalResponse 200 [("X-Bunq-Client-Request-Id", "r1")]
            "BODY" :=
  ⟨by decide, by decide,
    (canonicalResponse_matches_spec 200
      [("X-Bunq-Client-Request-Id", "r1")] "BODY").1 (by decide),
    (canonicalResponse_matches_spec 200
      [("X-Bunq-Client-Request-Id", "r1")] "BODY").2
      ("X-Bunq-Server-Signature", "sig") (by decide)⟩

set_option maxHeartbeats 1000000 in
/-- Claim C7: the outgoing header set contains exactly the six fixed
entries built on lines 81–88, the bearer-token header exactly when a token
is configured, and the computed client signature header. -/
theorem outgoingHeaders_exact
    (version requestId token signature name value : String) :
    (name, value) ∈ outgoingHeaders version requestId token signature ↔
      ((name = "Cache-Control" ∧ value = "no-cache") ∨
       (name = "User-Agent" ∧ value = "python-bunq-api/" ++ version) ∨
       (name = "X-Bunq-Client-Request-Id" ∧ value = requestId) ∨
       (name = "X-Bunq-Geolocation" ∧ value = "0 0 0 0 NL") ∨
       (name = "X-Bunq-Language" ∧ value = "en_US") ∨
       (name = "X-Bunq-Region" ∧ value = "nl_NL") ∨
       (token ≠ "" ∧ name = "X-Bunq-Client-Authentication" ∧ value = token) ∨
       (name = "X-Bunq-Client-Signature" ∧ value = signature)) := by
  unfold outgoingHeaders baseHeaders
  by_cases htok : token = ""
  · rw [if_pos htok]
    simp only [List.append_nil, List.mem_append, List.mem_cons,
      List.not_mem_nil, or_false, Prod.mk.injEq]
    constructor
    · intro h
      rcases h with h|h|h|h|h|h|h <;> tauto
    · intro h
      rcases h with h|h|h|h|h|h|⟨hne,h⟩|h <;> tauto
  · rw [if_neg htok]
    simp only [List.mem_append, List.mem_cons, List.not_mem_nil, or_false,
      Prod.mk.injEq]
    constructor
    · intro h
      rcases h with h|h|h|h|h|h|h|h <;> tauto
    · intro h
      rcases h with h|h|h|h|h|h|⟨hne,h⟩|h <;> tauto

/-- Claim C8: request canonicalization is a deterministic function of
(method-and-path action, headers, payload): equal inputs give
byte-identical canonical strings on any two runs. -/
theorem canonicalRequest_deterministic (a1 a2 : String) (h1 h2 : Headers)
    (p1 p2 : List (String × String)) (ha : a1 = a2) (hh : h1 = h2)
    (hp : p1 = p2) :
    canonicalRequest a1 h1 p1 = canonicalRequest a2 h2 p2 := by
  rw [ha, hh, hp]

/-- Witness for `canonicalRequest_deterministic`. -/
theorem canonicalRequest_deterministic_witness :
    ("GET /v1/user" : String) = "GET /v1/user"
    ∧ ([(("A" : String), ("1" : String))] : Headers) = [("A", "1")]
    ∧ ([] : List (String × String)) = []
    ∧ canonicalRequest "GET /v1/user" [("A", "1")] []
        = canonicalRequest "GET /v1/user" [("A", "1")] [] :=
  ⟨rfl, rfl, rfl,
    canonicalRequest_deterministic "GET /v1/user" "GET /v1/user"
      [("A", "1")] [("A", "1")] [] [] rfl rfl rfl⟩

/-- Claim C9: the verb used for transport depends only on payload
truthiness — POST when the payload is non-empty, GET when it is empty —
independently of `method`; in particular a `PUT` with empty payload goes
out as GET while the signed canonical string still begins with `PUT`. -/
theorem query_transport_by_payload (signFn : String → String)
    (version token requestId endpoint method : String)
    (payload : List (String × String)) :
    ((query signFn version token requestId endpoint payload method).transport
        = if payload.isEmpty then "GET" else "POST")
    ∧ (query signFn version token requestId endpoint [] "PUT").transport
        = "GET"
    ∧ ∃ rest, (query signFn version token requestId endpoint [] "PUT").msg
        = "PUT " ++ rest := by
  refine ⟨rfl, rfl, ?_⟩
  refine ⟨resolveEndpoint endpoint ++ "\n"
    ++ pyJoin "\n" ((pySorted (baseHeaders version requestId token)).map
        headerLine) ++ "\n\n", ?_⟩
  have hmsg : (query signFn version token requestId endpoint [] "PUT").msg
      = canonicalRequest ("PUT" ++ " " ++ resolveEndpoint endpoint)
          (baseHeaders version requestId token) [] := rfl
  rw [hmsg]
  unfold canonicalRequest
  rw [show (if ([] : List (String × String)).isEmpty then ""
        else jsonDumps []) = "" from rfl, String.append_empty,
    show ("PUT " : String) = "PUT" ++ " " from rfl]
  simp only [String.append_assoc]

/-- Claim C10: with `verify=True`, `query` cannot return the transport
response unchanged: `self.verify(r)` always raises (its result, had it
returned, would be bound to the dead local `valid`), so the exception
propagates out of `query` instead of `r` being returned; with
`verify=False` the response is returned as-is. -/
theorem queryReturn_verify_raises (kp : Bool) (r : Response) :
    (∃ e : PyError, queryReturn kp true r = Except.error e)
    ∧ queryReturn kp false r = Except.ok r := by
  refine ⟨?_, rfl⟩
  obtain ⟨e, he⟩ := verifyRaisesAux kp r
  exact ⟨e, by simp [queryReturn, he]⟩

end Bunq
